import Mathlib

/-!
# Shallow embedding of the `strompris` crate core

This file embeds, in Lean 4, the core logic of the `strompris` Rust crate:

* `src/local_time_deserializer.rs` — the custom timestamp decoder
  (`deserialize`), including chrono's `NaiveDateTime::parse_from_str`
  behaviour for the fixed format `"%Y-%m-%dT%H:%M:%S%z"`;
* `src/lib.rs` / `src/blocking/strompris.rs` — the async and blocking
  `Strompris::get_prices` methods (minimum-date validation, endpoint path
  construction, status handling, body decoding);
* `src/models/price_region.rs` — the `PriceRegion` enumeration;
* `src/models/hourly_price.rs` — the `HourlyPrice` record, its derived
  `PartialEq` and its manual `PartialOrd`.

Modelling conventions:

* Rust strings are modelled as `List Char`.  Rust's `str::find` and slice
  indices are byte indices; for ASCII strings byte indices coincide with
  character indices, and every string a theorem below quantifies over or
  evaluates at is ASCII (enforced by an explicit hypothesis where a theorem
  quantifies over arbitrary strings).
* A Rust computation that may `panic!` (via `.unwrap()`) is modelled with the
  three-valued `Outcome` type: `panics`, `fails e` (an `Err` return) or
  `ok a`.
* `f64` is modelled by `F64`: NaN, the two infinities, and finite values as
  rationals (every finite IEEE double is a rational; the embedding never
  does float arithmetic, only comparison and equality, which this model
  captures exactly, `-0.0 = 0.0` included).
* The HTTP transport (reqwest) is an external collaborator: it is modelled
  as a function from the request URL to either a transport error or a
  response (status code plus a body whose numeric fields are already
  JSON-decoded; JSON lexing of well-formed numeric fields is delegated,
  only the two timestamp strings are decoded by the embedded logic, exactly
  as in the crate where serde decodes the numeric fields and
  `local_time_deserializer::deserialize` the timestamps).
-/

/-- Outcome of a Rust computation: a panic (`unwrap` on `None`/`Err`), an
`Err` return, or an `Ok` value. -/
inductive Outcome (ε : Type) (α : Type) where
  | panics : Outcome ε α
  | fails : ε → Outcome ε α
  | ok : α → Outcome ε α
deriving DecidableEq, Repr

/-! ## `f64` comparison model -/

/-- Model of Rust `f64` for comparison purposes: NaN, ±∞, or a finite value
(every finite IEEE double is a rational number). -/
inductive F64 where
  | nan : F64
  | negInf : F64
  | num : ℚ → F64
  | posInf : F64
deriving DecidableEq, Repr

/-- Three-way comparison of rationals, as used by `f64::partial_cmp` on two
finite operands. -/
def qCompare (a b : ℚ) : Ordering :=
  if a < b then .lt else if a = b then .eq else .gt

/-- `f64::partial_cmp`: `None` iff an operand is NaN, otherwise the total
order `-∞ < finite values < +∞`. -/
def F64.partialCmp : F64 → F64 → Option Ordering
  | .nan, _ => none
  | _, .nan => none
  | .negInf, .negInf => some .eq
  | .negInf, _ => some .lt
  | _, .negInf => some .gt
  | .num a, .num b => some (qCompare a b)
  | .num _, .posInf => some .lt
  | .posInf, .num _ => some .gt
  | .posInf, .posInf => some .eq

/-- `f64::eq` (IEEE equality): NaN is not equal to anything, itself
included. -/
def F64.beq : F64 → F64 → Bool
  | .nan, _ => false
  | _, .nan => false
  | .negInf, .negInf => true
  | .num a, .num b => a = b
  | .posInf, .posInf => true
  | _, _ => false

/-- `f64::is_nan`. -/
def F64.isNan : F64 → Bool
  | .nan => true
  | _ => false

/-- Strict numeric order on non-NaN `f64` values (`a < b`); false whenever
an operand is NaN, as in IEEE 754. -/
def F64.ltb : F64 → F64 → Bool
  | .nan, _ => false
  | _, .nan => false
  | .negInf, .negInf => false
  | .negInf, _ => true
  | _, .negInf => false
  | .num a, .num b => a < b
  | .num _, .posInf => true
  | .posInf, _ => false

/-! ## Fixed-offset datetimes -/

/-- Model of `chrono::DateTime<FixedOffset>`: the UTC instant in seconds
since the Unix epoch, plus the display offset in seconds east of UTC.
`leap` records chrono's leap-second representation (a parsed second of 60 is
stored as second 59 with an extra 10⁹ nanoseconds; the embedding carries no
other sub-second component because the decoded format has none). -/
structure DateTimeFO where
  utcSecs : ℤ
  offsetSecs : ℤ
  leap : Bool
deriving DecidableEq, Repr

/-- `chrono`'s `PartialEq` for `DateTime` compares the UTC instants
(seconds and nanoseconds) only, ignoring the display offsets. -/
def DateTimeFO.beq (a b : DateTimeFO) : Bool :=
  a.utcSecs = b.utcSecs && a.leap = b.leap

/-! ## `HourlyPrice` (src/models/hourly_price.rs) -/

/-- The decoded hourly-price record (field-for-field the Rust struct). -/
structure HourlyPrice where
  nok_per_kwh : F64
  eur_per_kwh : F64
  exr : F64
  time_start : DateTimeFO
  time_end : DateTimeFO
deriving DecidableEq, Repr

/-- The derived `PartialEq` on `HourlyPrice`: field-wise equality of all
five fields (floats by IEEE equality, datetimes by instant). -/
def HourlyPrice.beq (a b : HourlyPrice) : Bool :=
  F64.beq a.nok_per_kwh b.nok_per_kwh &&
  F64.beq a.eur_per_kwh b.eur_per_kwh &&
  F64.beq a.exr b.exr &&
  DateTimeFO.beq a.time_start b.time_start &&
  DateTimeFO.beq a.time_end b.time_end

/-- The manual `PartialOrd` on `HourlyPrice`:
`self.nok_per_kwh.partial_cmp(&other.nok_per_kwh)`. -/
def HourlyPrice.partialCmp (a b : HourlyPrice) : Option Ordering :=
  F64.partialCmp a.nok_per_kwh b.nok_per_kwh

/-! ## `PriceRegion` (src/models/price_region.rs) -/

/-- The five Norwegian price regions. -/
inductive PriceRegion where
  | NO1 | NO2 | NO3 | NO4 | NO5
deriving DecidableEq, Repr, Fintype

/-- The region-to-token `match` in the async `get_prices` (src/lib.rs). -/
def regionToken : PriceRegion → String
  | .NO1 => "NO1"
  | .NO2 => "NO2"
  | .NO3 => "NO3"
  | .NO4 => "NO4"
  | .NO5 => "NO5"

/-! ## chrono parsing model

`NaiveDateTime::parse_from_str(&s, "%Y-%m-%dT%H:%M:%S%z")` is modelled item
by item after chrono 0.4's `format::parse` / `format::scan`:

* numeric items skip leading whitespace, then read 1 up to `width` digits
  greedily (width 4 for `%Y` — with an explicit sign the width is unbounded —
  and width 2 for the other fields);
* literal items match exactly, with no trimming;
* `%z` skips leading whitespace, then requires a sign (`+`, `-`, or U+2212),
  exactly two hour digits, an optional run of colons/whitespace, and exactly
  two minute digits with the first in `0..=5` (a first minute digit of
  `6..=9` is `OUT_OF_RANGE`); plain `%z` does *not* allow the minutes to be
  missing (only the parse-only `%#z` item is permissive);
* after all items the input must be exhausted (`TOO_LONG` otherwise);
* the parsed field values are assembled by `Parsed::to_naive_date` /
  `to_naive_time`: real proleptic-Gregorian calendar date within chrono's
  year range, hour < 24, minute < 60, second ≤ 60 where 60 denotes a leap
  second (stored as 59 plus a nanosecond overflow); the parsed UTC offset is
  syntax-checked but its value is discarded (`NaiveDateTime` keeps no
  offset), which is exactly the quirk the crate's decoder works around.
-/

/-- chrono `ParseError` kinds reachable by this format. -/
inductive ChronoErr where
  | tooShort | invalid | tooLong | outOfRange
deriving DecidableEq, Repr

deriving instance DecidableEq for Except

/-- `str::trim_start` (drop leading whitespace). -/
def trimStart (cs : List Char) : List Char := cs.dropWhile Char.isWhitespace

/-- Numeric value of an ASCII digit (`c as u32 - '0' as u32`). -/
def digitVal (c : Char) : Nat := c.toNat - 48

/-- Greedy digit scan: accumulated value, number of digits taken (capped at
`max`), and the remaining input. -/
def scanNumAux (max : Nat) (acc taken : Nat) : List Char → Nat × Nat × List Char
  | [] => (acc, taken, [])
  | c :: cs =>
    if taken < max ∧ c.isDigit then
      scanNumAux max (acc * 10 + digitVal c) (taken + 1) cs
    else (acc, taken, c :: cs)

/-- chrono `scan::number(s, 1, max)`: at least one and at most `max` leading
digits, greedily; errors (`TOO_SHORT` on empty input, `INVALID` on a leading
non-digit) collapse to `Except.error`. -/
def scanNumber (max : Nat) (cs : List Char) : Except ChronoErr (Nat × List Char) :=
  match cs with
  | [] => .error .tooShort
  | _ =>
    let r := scanNumAux max 0 0 cs
    if r.2.1 = 0 then .error .invalid else .ok (r.1, r.2.2)

/-- A numeric item of width `w` (`%m`, `%d`, `%H`, `%M`, `%S`): trim, then
scan up to `w` digits. -/
def parseNumW (w : Nat) (cs : List Char) : Except ChronoErr (Nat × List Char) :=
  scanNumber w (trimStart cs)

/-- The `%Y` item: trim, then an optionally signed year (`starts_with('-')`
/ `starts_with('+')` checks, as in chrono) — with an explicit sign the digit
count is unbounded, otherwise at most 4 digits. -/
def parseYearStep (cs : List Char) : Except ChronoErr (ℤ × List Char) :=
  let t := trimStart cs
  if t.head? = some '-' then
    (scanNumber (t.length - 1) (t.drop 1)).map fun vr => (-(vr.1 : ℤ), vr.2)
  else if t.head? = some '+' then
    (scanNumber (t.length - 1) (t.drop 1)).map fun vr => ((vr.1 : ℤ), vr.2)
  else (scanNumber 4 t).map fun vr => ((vr.1 : ℤ), vr.2)

/-- A literal item: the next character must match exactly. -/
def expectLit (c : Char) : List Char → Except ChronoErr (List Char)
  | [] => .error .tooShort
  | c' :: rest => if c' = c then .ok rest else .error .invalid

/-- chrono `scan::colon_or_space`: drop any run of colons and whitespace. -/
def colonOrSpace (cs : List Char) : List Char :=
  cs.dropWhile fun c => c = ':' ∨ c.isWhitespace

/-- chrono `scan::timezone_offset(s, colon_or_space, false, false, true)`,
as invoked for `%z`: sign, two hour digits, optional colons/whitespace, two
mandatory minute digits.  Returns the offset in seconds (discarded by
`NaiveDateTime` parsing) and the rest of the input. -/
def scanTzOffset (cs : List Char) : Except ChronoErr (ℤ × List Char) :=
  match cs with
  | [] => .error .tooShort
  | sign :: rest =>
    if sign = '+' ∨ sign = '-' ∨ sign = '−' then
      match rest with
      | d1 :: d2 :: rest2 =>
        if d1.isDigit ∧ d2.isDigit then
          let hours := digitVal d1 * 10 + digitVal d2
          let rest3 := colonOrSpace rest2
          match rest3 with
          | m1 :: m2 :: rest4 =>
            if m1.isDigit ∧ m2.isDigit then
              if digitVal m1 ≤ 5 then
                let secs : ℤ := hours * 3600 + (digitVal m1 * 10 + digitVal m2) * 60
                .ok (if sign = '+' then secs else -secs, rest4)
              else .error .outOfRange
            else .error .invalid
          | _ => .error .tooShort
        else .error .invalid
      | _ => .error .tooShort
    else .error .invalid

/-- Proleptic-Gregorian leap-year rule (chrono's, valid for all years via
Euclidean remainders). -/
def isLeapYear (y : ℤ) : Bool := y % 4 = 0 ∧ (y % 100 ≠ 0 ∨ y % 400 = 0)

/-- Days in a month of a given year. -/
def daysInMonth (y : ℤ) (m : Nat) : Nat :=
  if m = 2 then (if isLeapYear y then 29 else 28)
  else if m = 4 ∨ m = 6 ∨ m = 9 ∨ m = 11 then 30
  else 31

/-- The parsed wall-clock fields, validated (`second` already
leap-adjusted to `0..=59`, with `leap` set when the textual second was 60). -/
structure NaiveDT where
  year : ℤ
  month : Nat
  day : Nat
  hour : Nat
  minute : Nat
  second : Nat
  leap : Bool
deriving DecidableEq, Repr

/-- `Parsed::to_naive_date`/`to_naive_time`: validate the parsed fields and
build the naive datetime (chrono's calendar range is
`-262144-01-01 ..= 262143-12-31`). -/
def buildNaive (y : ℤ) (mo d h mi s : Nat) : Except ChronoErr NaiveDT :=
  if y < -262144 ∨ 262143 < y then .error .outOfRange
  else if mo < 1 ∨ 12 < mo then .error .outOfRange
  else if d < 1 ∨ daysInMonth y mo < d then .error .outOfRange
  else if 24 ≤ h ∨ 60 ≤ mi then .error .outOfRange
  else if 61 ≤ s then .error .outOfRange
  else .ok ⟨y, mo, d, h, mi, if s = 60 then 59 else s, s = 60⟩

/-- `NaiveDateTime::parse_from_str(s, "%Y-%m-%dT%H:%M:%S%z")`. -/
def chronoParseNaive (cs : List Char) : Except ChronoErr NaiveDT := do
  let (y, r1) ← parseYearStep cs
  let r2 ← expectLit '-' r1
  let (mo, r3) ← parseNumW 2 r2
  let r4 ← expectLit '-' r3
  let (d, r5) ← parseNumW 2 r4
  let r6 ← expectLit 'T' r5
  let (h, r7) ← parseNumW 2 r6
  let r8 ← expectLit ':' r7
  let (mi, r9) ← parseNumW 2 r8
  let r10 ← expectLit ':' r9
  let (s, r11) ← parseNumW 2 r10
  let (_off, r12) ← scanTzOffset (trimStart r11)
  if r12 ≠ [] then .error .tooLong
  else buildNaive y mo d h mi s

/-- Days from the Unix epoch (1970-01-01) of a proleptic-Gregorian calendar
date, valid for all years (floor division). -/
def daysFromCivil (y : ℤ) (m d : Nat) : ℤ :=
  let y' : ℤ := if m ≤ 2 then y - 1 else y
  let era : ℤ := Int.fdiv y' 400
  let yoe : ℤ := y' - era * 400
  let mp : Nat := (m + 9) % 12
  let doy : ℤ := ((153 * mp + 2) / 5 : Nat) + (d : ℤ) - 1
  let doe : ℤ := yoe * 365 + Int.fdiv yoe 4 - Int.fdiv yoe 100 + doy
  era * 146097 + doe - 719468

/-- Seconds since the Unix epoch of a naive datetime (leap-second nanoseconds
do not contribute to whole seconds, as in chrono's `timestamp`). -/
def naiveUtcSecs (n : NaiveDT) : ℤ :=
  86400 * daysFromCivil n.year n.month n.day
    + 3600 * (n.hour : ℤ) + 60 * (n.minute : ℤ) + (n.second : ℤ)

/-! ## The decoder (src/local_time_deserializer.rs `deserialize`) -/

/-- `str::find('+')`: index of the first `'+'`. -/
def findPlusIdx : List Char → Option Nat
  | [] => none
  | c :: cs => if c = '+' then some 0 else (findPlusIdx cs).map (· + 1)

/-- `str::get(i..j)`: `none` when the range overruns the string. -/
def sliceGet (cs : List Char) (i j : Nat) : Option (List Char) :=
  if i ≤ j ∧ j ≤ cs.length then some ((cs.drop i).take (j - i)) else none

/-- Digit run of `i32::from_str` (empty or non-digit ⇒ `none`). -/
def decDigitsAux (acc : Nat) : List Char → Option Nat
  | [] => some acc
  | c :: cs => if c.isDigit then decDigitsAux (acc * 10 + digitVal c) cs else none

/-- `str::parse::<i32>()`: optional sign, then one or more digits (the
two-character slices fed to it here cannot overflow `i32`). -/
def parseI32 (cs : List Char) : Option ℤ :=
  match cs with
  | [] => none
  | c :: rest =>
    if c = '+' then
      if rest = [] then none else (decDigitsAux 0 rest).map (fun n => (n : ℤ))
    else if c = '-' then
      if rest = [] then none else (decDigitsAux 0 rest).map (fun n => -(n : ℤ))
    else (decDigitsAux 0 (c :: rest)).map (fun n => (n : ℤ))

/-- `local_time_deserializer::deserialize`, applied to the already-extracted
string (`String::deserialize` is the serde boilerplate in front of it).
Mirrors the source line by line:

* `s.find('+').unwrap() + 1` — panics when the string has no `'+'`;
* `s.get(start..start + 2).unwrap().parse().unwrap()` — panics when fewer
  than two characters follow the `'+'` or they do not parse as an integer;
* `NaiveDateTime::parse_from_str(&s, FORMAT).map_err(custom)?` — a parse
  failure is returned as a decode error (the spec's `MalformedTimestamp`);
* `FixedOffset::east_opt(tz_offset * 3600).unwrap()` — panics when the
  extracted offset is not strictly within ±24 hours;
* the result is the naive instant re-tagged with the offset, minus
  `Duration::hours(tz_offset)`. -/
def localTimeDeserialize (cs : List Char) : Outcome ChronoErr DateTimeFO :=
  match findPlusIdx cs with
  | none => .panics
  | some i =>
    match sliceGet cs (i + 1) (i + 3) with
    | none => .panics
    | some off2 =>
      match parseI32 off2 with
      | none => .panics
      | some tzOffset =>
        match chronoParseNaive cs with
        | .error e => .fails e
        | .ok dt =>
          if -86400 < tzOffset * 3600 ∧ tzOffset * 3600 < 86400 then
            .ok ⟨naiveUtcSecs dt - 3600 * tzOffset, tzOffset * 3600, dt.leap⟩
          else .panics

/-! ## The client (src/lib.rs and src/blocking/strompris.rs)

The HTTP transport (reqwest) is external: it is a function from the request
URL to a transport error or a response.  The response body is modelled at
the post-JSON-lexing level (numeric fields already decoded, the two
timestamp fields still raw strings), matching the spec's delegation of
numeric JSON decoding; `Response::json::<Vec<HourlyPrice>>` then decodes
each record with `local_time_deserializer::deserialize` on both timestamp
fields, all-or-nothing.  `reqwest` checks no status code in `json()`. -/

/-- The error enum of src/error.rs.  `ReqwestGeneric` stands for a
`reqwest::Error` raised by the transport itself (send/connection), and
`ReqwestDecode` for a `reqwest::Error` produced when decoding the response
body fails (serde error wrapped by reqwest; for the embedded core the only
custom decode failure is the timestamp decoder's). -/
inductive Error where
  | Generic (msg : String)
  | ReqwestGeneric (msg : String)
  | ReqwestDecode (e : ChronoErr)
  | UrlParseError
deriving DecidableEq, Repr

/-- A raw body record as handed to serde: numeric fields already decoded,
timestamp fields still text. -/
structure RawRecord where
  nok : F64
  eur : F64
  exr : F64
  timeStart : List Char
  timeEnd : List Char

/-- An HTTP response: status code and body. -/
structure HttpResponse where
  status : Nat
  body : List RawRecord

/-- The external transport collaborator: URL to error-or-response. -/
def Transport : Type := String → Except String HttpResponse

/-- serde's derived `Deserialize` for `HourlyPrice`: numeric fields direct,
both timestamps via the custom deserializer; any failure fails the record. -/
def decodeRecord (r : RawRecord) : Outcome ChronoErr HourlyPrice :=
  match localTimeDeserialize r.timeStart with
  | .panics => .panics
  | .fails e => .fails e
  | .ok ts =>
    match localTimeDeserialize r.timeEnd with
    | .panics => .panics
    | .fails e => .fails e
    | .ok te => .ok ⟨r.nok, r.eur, r.exr, ts, te⟩

/-- `Vec<HourlyPrice>` deserialization: record by record, all-or-nothing. -/
def decodeBody : List RawRecord → Outcome ChronoErr (List HourlyPrice)
  | [] => .ok []
  | r :: rs =>
    match decodeRecord r with
    | .panics => .panics
    | .fails e => .fails e
    | .ok p =>
      match decodeBody rs with
      | .panics => .panics
      | .fails e => .fails e
      | .ok ps => .ok (p :: ps)

/-- The fixed base URL (`Strompris::new`). -/
def baseUrl : String := "https://www.hvakosterstrommen.no/api/v1/prices/"

/-- `MIN_DATE = NaiveDate::from_ymd_opt(2021, 12, 1)`, as (year, month,
day). -/
def minDateYmd : ℤ × Nat × Nat := (2021, 12, 1)

/-- The caller-supplied `impl Datelike` reduced to its year/month/day
accessors (all the client reads from it). -/
structure DateArg where
  year : ℤ
  month : Nat
  day : Nat

/-- `NaiveDate::from_ymd_opt` succeeds: a real proleptic-Gregorian date in
chrono's year range. -/
def validYmd (y : ℤ) (m d : Nat) : Prop :=
  -262144 ≤ y ∧ y ≤ 262143 ∧ 1 ≤ m ∧ m ≤ 12 ∧ 1 ≤ d ∧ d ≤ daysInMonth y m

instance (y : ℤ) (m d : Nat) : Decidable (validYmd y m d) := by
  unfold validYmd; infer_instance

/-- `NaiveDate` `>=` on valid dates is the lexicographic order on
(year, month, day); `date_after_min_date` compares against `MIN_DATE`. -/
def dateGeMin (dt : DateArg) : Prop :=
  minDateYmd.1 < dt.year ∨
    (dt.year = minDateYmd.1 ∧
      (minDateYmd.2.1 < dt.month ∨
        (dt.month = minDateYmd.2.1 ∧ minDateYmd.2.2 ≤ dt.day)))

instance (dt : DateArg) : Decidable (dateGeMin dt) := by
  unfold dateGeMin; infer_instance

/-- Rust `format!("{:02}", n)` on a `u32`: decimal, left-padded with zeros
to at least two characters. -/
def rustPad2 (n : Nat) : String :=
  let s := toString n
  if s.length < 2 then "0" ++ s else s

/-- `format!("{}/{:02}-{:02}_{}.json", year, month, day, price_region)` —
this line is textually identical in src/lib.rs and
src/blocking/strompris.rs (`{}` on the `i32` year prints it unpadded). -/
def endpointPath (y : ℤ) (m d : Nat) (region : String) : String :=
  toString y ++ "/" ++ rustPad2 m ++ "-" ++ rustPad2 d ++ "_" ++ region ++ ".json"

/-- `is_client_error()` on the response status: the 4xx class. -/
def isClientError (status : Nat) : Prop := 400 ≤ status ∧ status ≤ 499

instance (s : Nat) : Decidable (isClientError s) := by
  unfold isClientError; infer_instance

/-- The async `Strompris::get_prices` (src/lib.rs).  Order of operations as
in the source: `date_after_min_date` first (whose
`NaiveDate::from_ymd_opt(..).unwrap()` panics on an invalid y/m/d), then the
region `match`, the endpoint string, `base_url.join(..)?` (which cannot fail
for these paths, so the `?` never fires), the transport send (`?` on its
error), the `is_client_error` check, and finally `json()` — which decodes
the body regardless of the status code. -/
def asyncGetPrices (t : Transport) (dt : DateArg) (pr : PriceRegion) :
    Outcome Error (List HourlyPrice) :=
  if ¬ validYmd dt.year dt.month dt.day then .panics
  else if ¬ dateGeMin dt then
    .fails (.Generic "Date is before the minimum acceptable date")
  else
    let region := regionToken pr
    let url := baseUrl ++ endpointPath dt.year dt.month dt.day region
    match t url with
    | .error e => .fails (.ReqwestGeneric e)
    | .ok resp =>
      if isClientError resp.status then
        .fails (.Generic "Prices are not available for this date")
      else
        match decodeBody resp.body with
        | .panics => .panics
        | .fails e => .fails (.ReqwestDecode e)
        | .ok v => .ok v

/-- The blocking `Strompris::get_prices` (src/blocking/strompris.rs).  Same
logic with two textual differences: the region `match` is evaluated before
the minimum-date check (it is pure and total, the region enum and token
strings being verbatim the async ones), and `base_url.join(..)` is
`.unwrap()`ed instead of `?`-propagated (it cannot fail for these paths
either way). -/
def blockingGetPrices (t : Transport) (dt : DateArg) (pr : PriceRegion) :
    Outcome Error (List HourlyPrice) :=
  let region := regionToken pr
  if ¬ validYmd dt.year dt.month dt.day then .panics
  else if ¬ dateGeMin dt then
    .fails (.Generic "Date is before the minimum acceptable date")
  else
    let url := baseUrl ++ endpointPath dt.year dt.month dt.day region
    match t url with
    | .error e => .fails (.ReqwestGeneric e)
    | .ok resp =>
      if isClientError resp.status then
        .fails (.Generic "Prices are not available for this date")
      else
        match decodeBody resp.body with
        | .panics => .panics
        | .fails e => .fails (.ReqwestDecode e)
        | .ok v => .ok v

/-! ## Well-formed timestamp strings

`render2`/`render4`/`renderTs` produce the zero-padded decimal rendering of
a timestamp in the upstream wire format `YYYY-MM-DDTHH:MM:SS±HH:MM`; they
quantify "well-formed timestamp string" in the theorems below. -/

/-- Two-digit zero-padded decimal rendering (for `n < 100`). -/
def render2 (n : Nat) : List Char := [Nat.digitChar (n / 10), Nat.digitChar (n % 10)]

/-- Four-digit zero-padded decimal rendering (for `n < 10000`). -/
def render4 (n : Nat) : List Char :=
  [Nat.digitChar (n / 1000), Nat.digitChar (n / 100 % 10),
   Nat.digitChar (n / 10 % 10), Nat.digitChar (n % 10)]

/-- `YYYY-MM-DDTHH:MM:SS` followed by `sign`, two offset-hour digits, a
colon and two offset-minute digits. -/
def renderTs (sign : Char) (y mo d h mi s oh om : Nat) : List Char :=
  render4 y ++ ('-' :: (render2 mo ++ ('-' :: (render2 d ++ ('T' :: (render2 h ++
    (':' :: (render2 mi ++ (':' :: (render2 s ++
      (sign :: (render2 oh ++ (':' :: render2 om)))))))))))))

/-! ## Helper lemmas about digits and scanning -/

theorem digitChar_eq_star {k : Nat} (h : 16 ≤ k) : Nat.digitChar k = '*' := by
  unfold Nat.digitChar
  repeat rw [if_neg (by omega)]

theorem digitChar_ne_small : ∀ k : Nat, k < 16 →
    Nat.digitChar k ≠ '+' ∧ Nat.digitChar k ≠ '-' ∧ Nat.digitChar k ≠ '−' ∧
    Nat.digitChar k ≠ ':' ∧ Nat.digitChar k ≠ 'T' ∧
    (Nat.digitChar k).isWhitespace = false := by
  decide

theorem digitChar_ne (k : Nat) :
    Nat.digitChar k ≠ '+' ∧ Nat.digitChar k ≠ '-' ∧ Nat.digitChar k ≠ '−' ∧
    Nat.digitChar k ≠ ':' ∧ Nat.digitChar k ≠ 'T' ∧
    (Nat.digitChar k).isWhitespace = false := by
  rcases lt_or_ge k 16 with h | h
  · exact digitChar_ne_small k h
  · rw [digitChar_eq_star h]
    decide

theorem digitChar_digit : ∀ k : Nat, k < 10 →
    (Nat.digitChar k).isDigit = true ∧ digitVal (Nat.digitChar k) = k := by
  decide

theorem trimStart_cons {c : Char} (h : c.isWhitespace = false) (cs : List Char) :
    trimStart (c :: cs) = c :: cs := by
  simp [trimStart, List.dropWhile, h]

theorem scanNumAux_step {max acc taken : Nat} {c : Char} {cs : List Char}
    (h1 : taken < max) (h2 : c.isDigit = true) :
    scanNumAux max acc taken (c :: cs) =
      scanNumAux max (acc * 10 + digitVal c) (taken + 1) cs := by
  simp [scanNumAux, h1, h2]

theorem scanNumAux_stop {max acc : Nat} (cs : List Char) :
    scanNumAux max acc max cs = (acc, max, cs) := by
  cases cs with
  | nil => simp [scanNumAux]
  | cons c cs => simp [scanNumAux]

theorem scanNumber_cons (max : Nat) (c : Char) (cs : List Char) :
    scanNumber max (c :: cs) =
      (let r := scanNumAux max 0 0 (c :: cs)
       if r.2.1 = 0 then .error .invalid else .ok (r.1, r.2.2)) := by
  rfl

theorem scanNumber_render2 {n : Nat} (h : n < 100) (rest : List Char) :
    scanNumber 2 (render2 n ++ rest) = .ok (n, rest) := by
  have h1 := digitChar_digit (n / 10) (by omega)
  have h2 := digitChar_digit (n % 10) (by omega)
  rw [show render2 n ++ rest =
    Nat.digitChar (n / 10) :: (Nat.digitChar (n % 10) :: rest) by simp [render2]]
  rw [scanNumber_cons]
  rw [scanNumAux_step (by omega) h1.1, scanNumAux_step (by omega) h2.1,
    scanNumAux_stop]
  simp [h1.2, h2.2]
  omega

theorem scanNumber_render4 {n : Nat} (h : n < 10000) (rest : List Char) :
    scanNumber 4 (render4 n ++ rest) = .ok (n, rest) := by
  have h1 := digitChar_digit (n / 1000) (by omega)
  have h2 := digitChar_digit (n / 100 % 10) (by omega)
  have h3 := digitChar_digit (n / 10 % 10) (by omega)
  have h4 := digitChar_digit (n % 10) (by omega)
  rw [show render4 n ++ rest =
    Nat.digitChar (n / 1000) :: (Nat.digitChar (n / 100 % 10) ::
      (Nat.digitChar (n / 10 % 10) :: (Nat.digitChar (n % 10) :: rest))) by
    simp [render4]]
  rw [scanNumber_cons]
  rw [scanNumAux_step (by omega) h1.1, scanNumAux_step (by omega) h2.1,
    scanNumAux_step (by omega) h3.1, scanNumAux_step (by omega) h4.1,
    scanNumAux_stop]
  simp [h1.2, h2.2, h3.2, h4.2]
  omega

theorem render2_ne_nil (n : Nat) (rest : List Char) :
    ∃ c cs, render2 n ++ rest = c :: cs ∧ c = Nat.digitChar (n / 10) := by
  exact ⟨_, _, rfl, rfl⟩

theorem trimStart_render2 (n : Nat) (rest : List Char) :
    trimStart (render2 n ++ rest) = render2 n ++ rest := by
  have h := (digitChar_ne (n / 10)).2.2.2.2.2
  simp only [render2, List.cons_append]
  exact trimStart_cons h _

theorem parseNumW_render2 {n : Nat} (h : n < 100) (rest : List Char) :
    parseNumW 2 (render2 n ++ rest) = .ok (n, rest) := by
  rw [parseNumW, trimStart_render2, scanNumber_render2 h]

theorem parseYearStep_render4 {n : Nat} (h : n < 10000) (rest : List Char) :
    parseYearStep (render4 n ++ rest) = .ok ((n : ℤ), rest) := by
  have hne := digitChar_ne (n / 1000)
  have htrim : trimStart (render4 n ++ rest) = render4 n ++ rest := by
    simp only [render4, List.cons_append]
    exact trimStart_cons hne.2.2.2.2.2 _
  have hhead : (render4 n ++ rest).head? = some (Nat.digitChar (n / 1000)) := by
    simp [render4]
  rw [parseYearStep]
  simp only [htrim, hhead, Option.some.injEq]
  rw [if_neg (by simpa using hne.2.1), if_neg (by simpa using hne.1),
    scanNumber_render4 h]
  rfl

theorem expectLit_cons (c c' : Char) (rest : List Char) :
    expectLit c (c' :: rest) = if c' = c then .ok rest else .error .invalid := by
  rfl

theorem colonOrSpace_digit (n : Nat) (rest : List Char) :
    colonOrSpace (render2 n ++ rest) = render2 n ++ rest := by
  have h := digitChar_ne (n / 10)
  simp only [render2, List.cons_append, colonOrSpace, List.dropWhile]
  simp [h.2.2.2.1, h.2.2.2.2.2]

theorem scanTzOffset_plus {oh om : Nat} (h1 : oh < 100) (h2 : om ≤ 59) :
    scanTzOffset ('+' :: (render2 oh ++ ':' :: render2 om)) =
      .ok ((oh : ℤ) * 3600 + (om : ℤ) * 60, []) := by
  have hh1 := digitChar_digit (oh / 10) (by omega)
  have hh2 := digitChar_digit (oh % 10) (by omega)
  have hm1 := digitChar_digit (om / 10) (by omega)
  have hm2 := digitChar_digit (om % 10) (by omega)
  have hcs : colonOrSpace (':' :: [Nat.digitChar (om / 10), Nat.digitChar (om % 10)]) =
      [Nat.digitChar (om / 10), Nat.digitChar (om % 10)] := by
    have h := digitChar_ne (om / 10)
    simp [colonOrSpace, List.dropWhile, h.2.2.2.1, h.2.2.2.2.2]
  simp only [scanTzOffset, render2, List.cons_append, List.nil_append, hcs]
  simp only [hh1.1, hh2.1, hm1.1, hm2.1, hh1.2, hh2.2, hm1.2, hm2.2, and_self,
    true_or, if_true]
  rw [if_pos (show om / 10 ≤ 5 by omega)]
  simp only [Except.ok.injEq, Prod.mk.injEq, and_true]
  push_cast
  omega

theorem exceptBind_ok {ε α β : Type} (a : α) (f : α → Except ε β) :
    (Except.ok a >>= f : Except ε β) = f a := rfl

theorem buildNaive_ok {y : ℤ} {mo d h mi s : Nat}
    (hy1 : -262144 ≤ y) (hy2 : y ≤ 262143) (hmo1 : 1 ≤ mo) (hmo2 : mo ≤ 12)
    (hd1 : 1 ≤ d) (hd2 : d ≤ daysInMonth y mo) (hh : h ≤ 23) (hmi : mi ≤ 59)
    (hs : s ≤ 59) :
    buildNaive y mo d h mi s = .ok ⟨y, mo, d, h, mi, s, false⟩ := by
  unfold buildNaive
  rw [if_neg (by omega), if_neg (by omega), if_neg (by omega), if_neg (by omega),
    if_neg (by omega), if_neg (show ¬ s = 60 by omega),
    decide_eq_false (show ¬ s = 60 by omega)]

theorem daysInMonth_le (y : ℤ) (m : Nat) : daysInMonth y m ≤ 31 := by
  unfold daysInMonth
  split_ifs <;> omega

theorem chronoParseNaive_renderTs {y mo d h mi s oh om : Nat}
    (hy : y < 10000) (hmo1 : 1 ≤ mo) (hmo2 : mo ≤ 12) (hd1 : 1 ≤ d)
    (hd2 : d ≤ daysInMonth (y : ℤ) mo) (hh : h ≤ 23) (hmi : mi ≤ 59)
    (hs : s ≤ 59) (hoh : oh < 100) (hom : om ≤ 59) :
    chronoParseNaive (renderTs '+' y mo d h mi s oh om) =
      .ok ⟨(y : ℤ), mo, d, h, mi, s, false⟩ := by
  have hd100 : d < 100 := by have := daysInMonth_le (y : ℤ) mo; omega
  have e1 := parseYearStep_render4 (n := y) hy
  have e2 := parseNumW_render2 (n := mo) (by omega)
  have e3 := parseNumW_render2 (n := d) (by omega)
  have e4 := parseNumW_render2 (n := h) (by omega)
  have e5 := parseNumW_render2 (n := mi) (by omega)
  have e6 := parseNumW_render2 (n := s) (by omega)
  have e7 := scanTzOffset_plus hoh hom
  have etrim : trimStart ('+' :: (render2 oh ++ ':' :: render2 om)) =
      '+' :: (render2 oh ++ ':' :: render2 om) := trimStart_cons (by decide) _
  have e8 : buildNaive (y : ℤ) mo d h mi s =
      .ok ⟨(y : ℤ), mo, d, h, mi, s, false⟩ :=
    buildNaive_ok (by omega) (by omega) hmo1 hmo2 hd1 hd2 hh hmi hs
  unfold chronoParseNaive renderTs
  simp only [e1, e2, e3, e4, e5, e6, e7, e8, etrim, exceptBind_ok, expectLit_cons,
    eq_self_iff_true, if_true, ne_eq, not_true, if_false, ite_false]

theorem findPlusIdx_cons_ne {c : Char} (h : ¬ c = '+') (cs : List Char) :
    findPlusIdx (c :: cs) = (findPlusIdx cs).map (· + 1) := by
  simp [findPlusIdx, h]

theorem findPlusIdx_none (cs : List Char) (h : ∀ c ∈ cs, c ≠ '+') :
    findPlusIdx cs = none := by
  induction cs with
  | nil => rfl
  | cons c cs ih =>
    rw [findPlusIdx_cons_ne (h c (List.mem_cons_self c cs)) cs,
      ih (fun x hx => h x (List.mem_cons_of_mem c hx))]
    rfl

theorem findPlusIdx_append (l r : List Char) (h : ∀ c ∈ l, c ≠ '+') :
    findPlusIdx (l ++ '+' :: r) = some l.length := by
  induction l with
  | nil => simp [findPlusIdx]
  | cons c cs ih =>
    rw [List.cons_append, findPlusIdx_cons_ne (h c (List.mem_cons_self c cs)) _,
      ih (fun x hx => h x (List.mem_cons_of_mem c hx))]
    simp

theorem drop_append_cons (l r : List Char) (c : Char) :
    (l ++ c :: r).drop (l.length + 1) = r := by
  induction l with
  | nil => simp
  | cons x xs ih => simp [ih]

theorem sliceGet_mid (l r : List Char) (c : Char) (h : 2 ≤ r.length) :
    sliceGet (l ++ c :: r) (l.length + 1) (l.length + 3) = some (r.take 2) := by
  unfold sliceGet
  rw [if_pos]
  · rw [show l.length + 3 - (l.length + 1) = 2 by omega, drop_append_cons]
  · refine ⟨by omega, ?_⟩
    simp only [List.length_append, List.length_cons]
    omega

theorem parseI32_render2 {n : Nat} (h : n < 100) :
    parseI32 (render2 n) = some (n : ℤ) := by
  have h1 := digitChar_digit (n / 10) (by omega)
  have h2 := digitChar_digit (n % 10) (by omega)
  have hne := digitChar_ne (n / 10)
  simp only [render2, parseI32]
  rw [if_neg hne.1, if_neg hne.2.1]
  simp only [decDigitsAux, h1.1, h2.1, if_true]
  simp [h1.2, h2.2]
  omega

/-- Full evaluation of the decoder on a well-formed positive-offset
timestamp string: the naive wall-clock instant minus the extracted offset
hours, tagged with that offset (the offset minutes are consumed by the
parser but ignored by the extraction). -/
theorem localTimeDeserialize_renderTs_plus {y mo d h mi s oh om : Nat}
    (hy : y < 10000) (hmo1 : 1 ≤ mo) (hmo2 : mo ≤ 12) (hd1 : 1 ≤ d)
    (hd2 : d ≤ daysInMonth (y : ℤ) mo) (hh : h ≤ 23) (hmi : mi ≤ 59)
    (hs : s ≤ 59) (hoh : oh ≤ 23) (hom : om ≤ 59) :
    localTimeDeserialize (renderTs '+' y mo d h mi s oh om) =
      .ok ⟨naiveUtcSecs ⟨(y : ℤ), mo, d, h, mi, s, false⟩ - 3600 * (oh : ℤ),
        (oh : ℤ) * 3600, false⟩ := by
  have hdg : ∀ k : Nat, Nat.digitChar k ≠ '+' := fun k => (digitChar_ne k).1
  have hpfx : renderTs '+' y mo d h mi s oh om =
      (render4 y ++ ('-' :: (render2 mo ++ ('-' :: (render2 d ++ ('T' :: (render2 h ++
        (':' :: (render2 mi ++ (':' :: render2 s)))))))))) ++
      '+' :: (render2 oh ++ ':' :: render2 om) := by
    simp [renderTs, List.append_assoc]
  have hmem : ∀ c ∈ (render4 y ++ ('-' :: (render2 mo ++ ('-' :: (render2 d ++
      ('T' :: (render2 h ++ (':' :: (render2 mi ++ (':' :: render2 s)))))))))),
      c ≠ '+' := by
    intro c hc
    simp only [render4, render2, List.mem_append, List.mem_cons,
      List.not_mem_nil, or_false] at hc
    casesm* _ ∨ _
    all_goals subst c
    all_goals first
      | exact hdg _
      | decide
  have hlen : (render4 y ++ ('-' :: (render2 mo ++ ('-' :: (render2 d ++
      ('T' :: (render2 h ++ (':' :: (render2 mi ++ (':' :: render2 s)))))))))).length
      = 19 := by
    simp [render4, render2]
  have hfind : findPlusIdx (renderTs '+' y mo d h mi s oh om) = some 19 := by
    rw [hpfx, findPlusIdx_append _ _ hmem, hlen]
  have hslice : sliceGet (renderTs '+' y mo d h mi s oh om) 20 22 =
      some (render2 oh) := by
    rw [hpfx]
    have := sliceGet_mid (render4 y ++ ('-' :: (render2 mo ++ ('-' :: (render2 d ++
      ('T' :: (render2 h ++ (':' :: (render2 mi ++ (':' :: render2 s))))))))))
      (render2 oh ++ ':' :: render2 om) '+' (by simp [render2])
    rw [hlen] at this
    rw [show (20 : Nat) = 19 + 1 by omega, show (22 : Nat) = 19 + 3 by omega, this]
    simp [render2]
  have hparse : parseI32 (render2 oh) = some (oh : ℤ) := parseI32_render2 (by omega)
  have hchrono : chronoParseNaive (renderTs '+' y mo d h mi s oh om) =
      .ok ⟨(y : ℤ), mo, d, h, mi, s, false⟩ :=
    chronoParseNaive_renderTs hy hmo1 hmo2 hd1 hd2 hh hmi hs (by omega) hom
  simp only [localTimeDeserialize, hfind, hslice, hparse, hchrono]
  rw [if_pos (by constructor <;> omega)]

theorem qCompare_spec (a b : ℚ) :
    (qCompare a b = .lt ↔ a < b) ∧ (qCompare a b = .gt ↔ b < a) ∧
    (qCompare a b = .eq ↔ a = b) := by
  unfold qCompare
  split_ifs with h1 h2
  · refine ⟨by simp [h1], ?_, ?_⟩
    · exact ⟨fun hE => absurd hE (by decide), fun hba => absurd hba (lt_asymm h1)⟩
    · exact ⟨fun hE => absurd hE (by decide), fun hab => absurd h1 (by simp [hab])⟩
  · refine ⟨?_, ?_, by simp [h2]⟩
    · exact ⟨fun hE => absurd hE (by decide), fun hab => absurd hab (by simp [h2])⟩
    · exact ⟨fun hE => absurd hE (by decide), fun hba => absurd hba (by simp [h2])⟩
  · have h3 : b < a := lt_of_le_of_ne (not_lt.1 h1) (fun e => h2 e.symm)
    refine ⟨?_, by simp [h3], ?_⟩
    · exact ⟨fun hE => absurd hE (by decide), fun hab => absurd hab h1⟩
    · exact ⟨fun hE => absurd hE (by decide), fun hab => absurd hab h2⟩

/-! ## Claim theorems -/

/-- **C1, counterexample.**  The claim says a malformed input string —
in particular one missing the offset sign, such as the spec's own example
`"2024-07-14T00:00:0002"` — fails with a `MalformedTimestamp` decode error
and never crashes.  On the code, `s.find('+').unwrap()` panics on exactly
that input: the decoder crashes instead of returning an error. -/
theorem claim1_counterexample :
    localTimeDeserialize ("2024-07-14T00:00:0002".data) = .panics := by
  decide

/-- **C1, amended.**  For any (ASCII) input string that does contain a `'+'`
followed by two characters parsing as an integer of magnitude at most 23,
the decoder never panics: a datetime-parse failure is returned as the
`MalformedTimestamp` decode error and otherwise it succeeds.  Inputs
missing the `'+'`, or whose offset suffix does not parse, panic instead
(see the counterexample). -/
theorem claim1_amended (cs : List Char) (_hascii : ∀ c ∈ cs, c.toNat < 128)
    (i : Nat) (hfind : findPlusIdx cs = some i)
    (off2 : List Char) (hslice : sliceGet cs (i + 1) (i + 3) = some off2)
    (z : ℤ) (hparse : parseI32 off2 = some z) (hz : z.natAbs ≤ 23) :
    localTimeDeserialize cs ≠ .panics ∧
    (∀ e, chronoParseNaive cs = .error e → localTimeDeserialize cs = .fails e) := by
  have heast : -86400 < z * 3600 ∧ z * 3600 < 86400 := by
    constructor <;> omega
  constructor
  · simp only [localTimeDeserialize, hfind, hslice, hparse]
    cases hc : chronoParseNaive cs with
    | error e => simp
    | ok dt => simp [heast]
  · intro e he
    simp only [localTimeDeserialize, hfind, hslice, hparse, he]

/-- **C1, witness.**  A string with a valid `+02:00` suffix but an invalid
month fails gracefully with a decode error (no panic), by `claim1_amended`
applied at a concrete input. -/
theorem claim1_amended_witness :
    localTimeDeserialize ("2024-13-99T00:00:00+02:00".data) = .fails .outOfRange :=
  (claim1_amended ("2024-13-99T00:00:00+02:00".data) (by decide) 19 (by decide)
    ("02".data) (by decide) 2 (by decide) (by decide)).2 .outOfRange (by decide)

/-- **C2, counterexample.**  The claim says the decoder scans for `'+'` or
`'-'` and succeeds on well-formed negative-offset strings.  On the code,
`s.find('+')` looks only for `'+'`, so the claim's own format instance
`"2024-07-14T00:00:00-02"` makes the `.unwrap()` panic; the decoder neither
succeeds nor returns a negative offset. -/
theorem claim2_counterexample :
    localTimeDeserialize ("2024-07-14T00:00:00-02".data) = .panics := by
  decide

/-- **C2, amended.**  The offset extraction scans only for `'+'`: every
well-formed negative-offset timestamp string (here with the minutes
component the parser would require, `YYYY-MM-DDTHH:MM:SS-HH:MM`) contains
no `'+'` at all, so `find('+').unwrap()` panics — the decoder does assume a
positive sign. -/
theorem claim2_amended (y mo d h mi s oh om : Nat)
    (_hy : y < 10000) (_hmo1 : 1 ≤ mo) (_hmo2 : mo ≤ 12) (_hd1 : 1 ≤ d)
    (_hd2 : d ≤ daysInMonth (y : ℤ) mo) (_hh : h ≤ 23) (_hmi : mi ≤ 59)
    (_hs : s ≤ 59) (_hoh : oh ≤ 23) (_hom : om ≤ 59) :
    localTimeDeserialize (renderTs '-' y mo d h mi s oh om) = .panics := by
  have hdg : ∀ k : Nat, Nat.digitChar k ≠ '+' := fun k => (digitChar_ne k).1
  have hfind : findPlusIdx (renderTs '-' y mo d h mi s oh om) = none := by
    apply findPlusIdx_none
    intro c hc
    simp only [renderTs, render4, render2, List.mem_append, List.mem_cons,
      List.not_mem_nil, or_false] at hc
    casesm* _ ∨ _
    all_goals subst c
    all_goals first
      | exact hdg _
      | decide
  simp only [localTimeDeserialize, hfind]

/-- **C2, witness.**  `claim2_amended` at the concrete well-formed
negative-offset timestamp 2024-07-14T00:00:00−02:00. -/
theorem claim2_amended_witness :
    localTimeDeserialize (renderTs '-' 2024 7 14 0 0 0 2 0) = .panics :=
  claim2_amended 2024 7 14 0 0 0 2 0 (by norm_num) (by norm_num) (by norm_num)
    (by norm_num) (by decide) (by norm_num) (by norm_num) (by norm_num)
    (by norm_num) (by norm_num)

/-- **C3, counterexample.**  The claim pins
`decode "2024-07-14T00:00:00+02" = 2024-07-13T22:00:00 UTC, offset +2`.
On the code this input does not decode at all: chrono's `%z` item requires a
minutes component in the offset (`+02:00` or `+0200`; only the parse-only
`%#z` accepts a bare `+02`), so `NaiveDateTime::parse_from_str` fails with
`TOO_SHORT` and the decoder returns the decode error instead of the claimed
timestamp. -/
theorem claim3_counterexample :
    localTimeDeserialize ("2024-07-14T00:00:00+02".data) = .fails .tooShort := by
  decide

/-- **C3, amended.**  For well-formed *positive-offset* timestamp strings
*with a minutes component* `YYYY-MM-DDTHH:MM:SS+HH:MM` (the format the
upstream API actually serves, e.g. `+02:00`), the decoder parses the
wall-clock fields as the instant's UTC representation and subtracts the
extracted offset hours: the UTC instant is the wall clock minus `HH` hours
and the offset tag is `+HH` (the offset minutes are consumed but ignored by
the extraction).  In particular `"2024-07-14T00:00:00+02:00"` decodes to
2024-07-13T22:00:00 UTC with offset +2h, and `"2024-07-14T23:00:00+02:00"`
to 2024-07-14T21:00:00 UTC with offset +2h. -/
theorem claim3_amended :
    (∀ y mo d h mi s oh om : Nat, y < 10000 → 1 ≤ mo → mo ≤ 12 → 1 ≤ d →
      d ≤ daysInMonth (y : ℤ) mo → h ≤ 23 → mi ≤ 59 → s ≤ 59 → oh ≤ 23 → om ≤ 59 →
      localTimeDeserialize (renderTs '+' y mo d h mi s oh om) =
        .ok ⟨naiveUtcSecs ⟨(y : ℤ), mo, d, h, mi, s, false⟩ - 3600 * (oh : ℤ),
          (oh : ℤ) * 3600, false⟩) ∧
    localTimeDeserialize ("2024-07-14T00:00:00+02:00".data) =
      .ok ⟨naiveUtcSecs ⟨2024, 7, 13, 22, 0, 0, false⟩, 7200, false⟩ ∧
    localTimeDeserialize ("2024-07-14T23:00:00+02:00".data) =
      .ok ⟨naiveUtcSecs ⟨2024, 7, 14, 21, 0, 0, false⟩, 7200, false⟩ := by
  refine ⟨?_, by decide, by decide⟩
  intro y mo d h mi s oh om hy hmo1 hmo2 hd1 hd2 hh hmi hs hoh hom
  exact localTimeDeserialize_renderTs_plus hy hmo1 hmo2 hd1 hd2 hh hmi hs hoh hom

/-- **C3, witness.**  `claim3_amended` applied at the rendered string
`"2024-07-14T00:00:00+02:00"`. -/
theorem claim3_amended_witness :
    localTimeDeserialize (renderTs '+' 2024 7 14 0 0 0 2 0) =
      .ok ⟨naiveUtcSecs ⟨((2024 : Nat) : ℤ), 7, 14, 0, 0, 0, false⟩ -
        3600 * ((2 : Nat) : ℤ), ((2 : Nat) : ℤ) * 3600, false⟩ :=
  claim3_amended.1 2024 7 14 0 0 0 2 0 (by norm_num) (by norm_num) (by norm_num)
    (by norm_num) (by decide) (by norm_num) (by norm_num) (by norm_num)
    (by norm_num) (by norm_num)

/-- **C4.**  For every valid calendar date strictly before the 2021-12-01
minimum-date floor and every region, both `get_prices` forms fail with the
date-too-early error (`Error::Generic("Date is before the minimum acceptable
date")`, the spec's `DateTooEarly`), and the result does not depend on the
transport — no network call is issued, the check runs before the request is
built.  Valid dates on or after the floor pass the check: the result is
never the date-too-early error. -/
theorem claim4_date_floor (t : Transport) (dt : DateArg) (pr : PriceRegion)
    (hv : validYmd dt.year dt.month dt.day) :
    (¬ dateGeMin dt →
      asyncGetPrices t dt pr =
        .fails (.Generic "Date is before the minimum acceptable date") ∧
      blockingGetPrices t dt pr =
        .fails (.Generic "Date is before the minimum acceptable date") ∧
      (∀ t' : Transport, asyncGetPrices t dt pr = asyncGetPrices t' dt pr ∧
        blockingGetPrices t dt pr = blockingGetPrices t' dt pr)) ∧
    (dateGeMin dt →
      asyncGetPrices t dt pr ≠
        .fails (.Generic "Date is before the minimum acceptable date") ∧
      blockingGetPrices t dt pr ≠
        .fails (.Generic "Date is before the minimum acceptable date")) := by
  constructor
  · intro hlt
    have ha : asyncGetPrices t dt pr =
        .fails (.Generic "Date is before the minimum acceptable date") := by
      simp only [asyncGetPrices]
      rw [if_neg (not_not_intro hv), if_pos hlt]
    have hb : blockingGetPrices t dt pr =
        .fails (.Generic "Date is before the minimum acceptable date") := by
      simp only [blockingGetPrices]
      rw [if_neg (not_not_intro hv), if_pos hlt]
    refine ⟨ha, hb, fun t' => ⟨?_, ?_⟩⟩
    · rw [ha]
      simp only [asyncGetPrices]
      rw [if_neg (not_not_intro hv), if_pos hlt]
    · rw [hb]
      simp only [blockingGetPrices]
      rw [if_neg (not_not_intro hv), if_pos hlt]
  · intro hge
    constructor
    · simp only [asyncGetPrices]
      rw [if_neg (not_not_intro hv), if_neg (not_not_intro hge)]
      cases ht : t (baseUrl ++ endpointPath dt.year dt.month dt.day (regionToken pr)) with
      | error e => simp
      | ok resp =>
        by_cases hc : isClientError resp.status
        · simp [hc]
        · simp only [hc, if_false]
          cases hb : decodeBody resp.body <;> simp
    · simp only [blockingGetPrices]
      rw [if_neg (not_not_intro hv), if_neg (not_not_intro hge)]
      cases ht : t (baseUrl ++ endpointPath dt.year dt.month dt.day (regionToken pr)) with
      | error e => simp
      | ok resp =>
        by_cases hc : isClientError resp.status
        · simp [hc]
        · simp only [hc, if_false]
          cases hb : decodeBody resp.body <;> simp

/-- **C4, witness.**  `claim4_date_floor` at 2021-11-30 (one day before the
floor) with a stub transport: both forms return the date-too-early error. -/
theorem claim4_witness :
    asyncGetPrices (fun _ => .ok ⟨200, []⟩) ⟨2021, 11, 30⟩ .NO1 =
        .fails (.Generic "Date is before the minimum acceptable date") ∧
      blockingGetPrices (fun _ => .ok ⟨200, []⟩) ⟨2021, 11, 30⟩ .NO1 =
        .fails (.Generic "Date is before the minimum acceptable date") :=
  have h := (claim4_date_floor (fun _ => .ok ⟨200, []⟩) ⟨2021, 11, 30⟩ .NO1
    (by decide)).1 (by decide)
  ⟨h.1, h.2.1⟩

/-- **C5, counterexample.**  The claim says every non-2xx status other than
4xx propagates as a transport-level error.  On the code there is no such
check: after the `is_client_error()` test the body is JSON-decoded whatever
the status, so a 500 response whose body is a valid (empty) price array
returns `Ok(vec![])` — no error at all. -/
theorem claim5_counterexample :
    asyncGetPrices (fun _ => .ok ⟨500, []⟩) ⟨2024, 7, 14⟩ .NO1 = .ok [] ∧
    blockingGetPrices (fun _ => .ok ⟨500, []⟩) ⟨2024, 7, 14⟩ .NO1 = .ok [] := by
  constructor <;> decide

/-- **C5, amended.**  After dispatch, `get_prices` (both forms) returns the
prices-unavailable error (`Error::Generic("Prices are not available for this
date")`, the spec's `PricesUnavailable`) iff the response status is in the
4xx class.  Other statuses — 5xx included — are not treated specially: the
body is decoded regardless, a successful decode returns the prices and a
failed decode surfaces as the wrapped decode error; a transport failure is
propagated wrapped.  The result is never `PricesUnavailable` for a non-4xx
status. -/
theorem claim5_amended (t : Transport) (dt : DateArg) (pr : PriceRegion)
    (resp : HttpResponse)
    (hv : validYmd dt.year dt.month dt.day) (hge : dateGeMin dt)
    (ht : t (baseUrl ++ endpointPath dt.year dt.month dt.day (regionToken pr)) =
      .ok resp) :
    (isClientError resp.status →
      asyncGetPrices t dt pr =
        .fails (.Generic "Prices are not available for this date") ∧
      blockingGetPrices t dt pr =
        .fails (.Generic "Prices are not available for this date")) ∧
    (¬ isClientError resp.status →
      asyncGetPrices t dt pr ≠
        .fails (.Generic "Prices are not available for this date") ∧
      blockingGetPrices t dt pr ≠
        .fails (.Generic "Prices are not available for this date") ∧
      asyncGetPrices t dt pr =
        (match decodeBody resp.body with
          | .panics => .panics
          | .fails e => .fails (.ReqwestDecode e)
          | .ok v => .ok v) ∧
      blockingGetPrices t dt pr =
        (match decodeBody resp.body with
          | .panics => .panics
          | .fails e => .fails (.ReqwestDecode e)
          | .ok v => .ok v)) := by
  have ha : asyncGetPrices t dt pr =
      (if isClientError resp.status then
        .fails (.Generic "Prices are not available for this date")
      else
        (match decodeBody resp.body with
          | .panics => .panics
          | .fails e => .fails (.ReqwestDecode e)
          | .ok v => .ok v)) := by
    simp only [asyncGetPrices]
    rw [if_neg (not_not_intro hv), if_neg (not_not_intro hge), ht]
  have hb : blockingGetPrices t dt pr =
      (if isClientError resp.status then
        .fails (.Generic "Prices are not available for this date")
      else
        (match decodeBody resp.body with
          | .panics => .panics
          | .fails e => .fails (.ReqwestDecode e)
          | .ok v => .ok v)) := by
    simp only [blockingGetPrices]
    rw [if_neg (not_not_intro hv), if_neg (not_not_intro hge), ht]
  constructor
  · intro hc
    rw [ha, hb, if_pos hc]
    exact ⟨rfl, rfl⟩
  · intro hc
    rw [ha, hb, if_neg hc]
    refine ⟨?_, ?_, rfl, rfl⟩ <;>
      cases hd : decodeBody resp.body <;> simp

/-- **C5, witness.**  `claim5_amended` at a stub transport answering 404
with an empty body: both forms return the prices-unavailable error. -/
theorem claim5_amended_witness :
    asyncGetPrices (fun _ => .ok ⟨404, []⟩) ⟨2024, 7, 14⟩ .NO1 =
        .fails (.Generic "Prices are not available for this date") ∧
      blockingGetPrices (fun _ => .ok ⟨404, []⟩) ⟨2024, 7, 14⟩ .NO1 =
        .fails (.Generic "Prices are not available for this date") :=
  (claim5_amended (fun _ => .ok ⟨404, []⟩) ⟨2024, 7, 14⟩ .NO1 ⟨404, []⟩
    (by decide) (by decide) rfl).1 (by decide)

/-- Modelled from the spec's words (for comparison only): a "zero-padded
2-digit" decimal rendering. -/
def specPad2 (n : Nat) : String :=
  ⟨[Nat.digitChar (n / 10 % 10), Nat.digitChar (n % 10)]⟩

theorem rustPad2_spec : ∀ n : Nat, n < 100 →
    rustPad2 n = specPad2 n ∧ (rustPad2 n).length = 2 := by
  decide

/-- **C6.**  The endpoint path is exactly
`{year}/{2-digit month}-{2-digit day}_{region token}.json`: the code's
`format!("{}/{:02}-{:02}_{}.json", ..)` rendering coincides with the spec's
zero-padded form for every valid month and day, month and day are always
exactly two characters, the year is rendered unpadded (`toString`), the
(2024-01-31, NO1) instance is the literal `"2024/01-31_NO1.json"`, and this
path joined to the base URL is precisely what `get_prices` hands the
transport (observed through an echoing stub transport). -/
theorem claim6_endpoint_path :
    (∀ (y : ℤ) (mo d : Nat) (r : PriceRegion), 1 ≤ mo → mo ≤ 12 → 1 ≤ d → d ≤ 31 →
      endpointPath y mo d (regionToken r) =
        toString y ++ "/" ++ specPad2 mo ++ "-" ++ specPad2 d ++ "_" ++
          regionToken r ++ ".json" ∧
      (rustPad2 mo).length = 2 ∧ (rustPad2 d).length = 2) ∧
    endpointPath 2024 1 31 (regionToken .NO1) = "2024/01-31_NO1.json" ∧
    (∀ (dt : DateArg) (pr : PriceRegion), validYmd dt.year dt.month dt.day →
      dateGeMin dt →
      asyncGetPrices (fun u => .error u) dt pr =
        .fails (.ReqwestGeneric
          (baseUrl ++ endpointPath dt.year dt.month dt.day (regionToken pr)))) := by
  refine ⟨?_, by decide, ?_⟩
  · intro y mo d r h1 h2 h3 h4
    have hm := rustPad2_spec mo (by omega)
    have hd := rustPad2_spec d (by omega)
    exact ⟨by rw [endpointPath, hm.1, hd.1], hm.2, hd.2⟩
  · intro dt pr hv hge
    simp only [asyncGetPrices]
    rw [if_neg (not_not_intro hv), if_neg (not_not_intro hge)]

/-- **C6, witness.**  `claim6_endpoint_path` applied at (2024-01-31, NO1). -/
theorem claim6_witness :
    endpointPath 2024 1 31 (regionToken .NO1) =
      toString (2024 : ℤ) ++ "/" ++ specPad2 1 ++ "-" ++ specPad2 31 ++ "_" ++
        regionToken .NO1 ++ ".json" :=
  (claim6_endpoint_path.1 2024 1 31 .NO1 (by norm_num) (by norm_num)
    (by norm_num) (by norm_num)).1

/-- **C7.**  The region-to-token mapping is the claimed bijection onto the
five uppercase tokens: each of the five values maps to its token and the map
is injective (distinct regions yield distinct tokens). -/
theorem claim7_region_bijection :
    regionToken .NO1 = "NO1" ∧ regionToken .NO2 = "NO2" ∧
    regionToken .NO3 = "NO3" ∧ regionToken .NO4 = "NO4" ∧
    regionToken .NO5 = "NO5" ∧
    ∀ a b : PriceRegion, regionToken a = regionToken b → a = b := by
  decide

/-- **C8.**  `HourlyPrice` ordering is determined solely by `nok_per_kwh`:
(1) replacing any other field leaves the comparison unchanged; (2) when both
`nok_per_kwh` values are non-NaN the comparison returns `some` of exactly
the numeric three-way comparison of that field (`lt`/`gt`/`eq` characterised
by the numeric order and IEEE equality); (3) when either is NaN the
comparison is `none` — incomparable, never a crash (the function is total by
construction). -/
theorem claim8_ordering (a b : HourlyPrice) :
    (∀ a' b' : HourlyPrice, a'.nok_per_kwh = a.nok_per_kwh →
      b'.nok_per_kwh = b.nok_per_kwh →
      HourlyPrice.partialCmp a' b' = HourlyPrice.partialCmp a b) ∧
    (a.nok_per_kwh.isNan = false → b.nok_per_kwh.isNan = false →
      ∃ o, HourlyPrice.partialCmp a b = some o ∧
        (o = .lt ↔ F64.ltb a.nok_per_kwh b.nok_per_kwh = true) ∧
        (o = .gt ↔ F64.ltb b.nok_per_kwh a.nok_per_kwh = true) ∧
        (o = .eq ↔ F64.beq a.nok_per_kwh b.nok_per_kwh = true)) ∧
    ((a.nok_per_kwh.isNan = true ∨ b.nok_per_kwh.isNan = true) →
      HourlyPrice.partialCmp a b = none) := by
  obtain ⟨na, ea, xa, ta1, ta2⟩ := a
  obtain ⟨nb, eb, xb, tb1, tb2⟩ := b
  refine ⟨fun a' b' h1 h2 => by simp [HourlyPrice.partialCmp, h1, h2], ?_, ?_⟩
  · intro hna hnb
    simp only [HourlyPrice.partialCmp] at *
    cases na <;> cases nb
    all_goals first
      | exact absurd hna (by decide)
      | exact absurd hnb (by decide)
      | exact ⟨.eq, rfl, by simp [F64.ltb], by simp [F64.ltb], by simp [F64.beq]⟩
      | exact ⟨.lt, rfl, by simp [F64.ltb], by simp [F64.ltb], by simp [F64.beq]⟩
      | exact ⟨.gt, rfl, by simp [F64.ltb], by simp [F64.ltb], by simp [F64.beq]⟩
      | (rename_i qa qb
         exact ⟨qCompare qa qb, rfl,
           by rw [(qCompare_spec qa qb).1]; simp [F64.ltb],
           by rw [(qCompare_spec qa qb).2.1]; simp [F64.ltb],
           by rw [(qCompare_spec qa qb).2.2]; simp [F64.beq]⟩)
  · intro hor
    simp only [HourlyPrice.partialCmp] at *
    rcases hor with h | h <;> cases na <;> cases nb <;>
      simp_all [F64.isNan, F64.partialCmp]

/-- **C8, witness.**  `claim8_ordering` at two concrete records with
non-NaN prices 1 and 2: the comparison is `some lt`, characterised by the
numeric order of the price field alone. -/
theorem claim8_witness :
    ∃ o, HourlyPrice.partialCmp
        ⟨.num 1, .num 5, .num 10, ⟨0, 7200, false⟩, ⟨3600, 7200, false⟩⟩
        ⟨.num 2, .num 5, .num 10, ⟨0, 7200, false⟩, ⟨3600, 7200, false⟩⟩ =
          some o ∧
      (o = .lt ↔ F64.ltb
        (HourlyPrice.nok_per_kwh
          ⟨.num 1, .num 5, .num 10, ⟨0, 7200, false⟩, ⟨3600, 7200, false⟩⟩)
        (HourlyPrice.nok_per_kwh
          ⟨.num 2, .num 5, .num 10, ⟨0, 7200, false⟩, ⟨3600, 7200, false⟩⟩) =
          true) ∧
      (o = .gt ↔ F64.ltb
        (HourlyPrice.nok_per_kwh
          ⟨.num 2, .num 5, .num 10, ⟨0, 7200, false⟩, ⟨3600, 7200, false⟩⟩)
        (HourlyPrice.nok_per_kwh
          ⟨.num 1, .num 5, .num 10, ⟨0, 7200, false⟩, ⟨3600, 7200, false⟩⟩) =
          true) ∧
      (o = .eq ↔ F64.beq
        (HourlyPrice.nok_per_kwh
          ⟨.num 1, .num 5, .num 10, ⟨0, 7200, false⟩, ⟨3600, 7200, false⟩⟩)
        (HourlyPrice.nok_per_kwh
          ⟨.num 2, .num 5, .num 10, ⟨0, 7200, false⟩, ⟨3600, 7200, false⟩⟩) =
          true) :=
  (claim8_ordering
    ⟨.num 1, .num 5, .num 10, ⟨0, 7200, false⟩, ⟨3600, 7200, false⟩⟩
    ⟨.num 2, .num 5, .num 10, ⟨0, 7200, false⟩, ⟨3600, 7200, false⟩⟩).2.1
    (by decide) (by decide)

/-- **C9.**  The blocking and async `get_prices` are extensionally equal:
for every transport, date and region they produce the same outcome — same
minimum-date check, same endpoint path, same status-to-error mapping, same
body decoding; the two sources differ only in evaluating the (pure, total)
region `match` before rather than after the date check and in unwrapping
rather than `?`-propagating the infallible URL join. -/
theorem claim9_blocking_async_equiv (t : Transport) (dt : DateArg)
    (pr : PriceRegion) :
    asyncGetPrices t dt pr = blockingGetPrices t dt pr := rfl

/-- **C10.**  Derived equality compares all five fields while the ordering
compares only `nok_per_kwh`: two records with equal non-NaN prices but
different `eur_per_kwh` compare as `Some(Equal)` yet are not equal (both by
the derived `PartialEq` and structurally), while a record equals itself;
ordering-equivalence does not imply equality. -/
theorem claim10_eq_vs_ord :
    HourlyPrice.partialCmp
        ⟨.num 1, .num 1, .num 10, ⟨0, 7200, false⟩, ⟨3600, 7200, false⟩⟩
        ⟨.num 1, .num 2, .num 10, ⟨0, 7200, false⟩, ⟨3600, 7200, false⟩⟩ =
      some .eq ∧
    HourlyPrice.beq
        ⟨.num 1, .num 1, .num 10, ⟨0, 7200, false⟩, ⟨3600, 7200, false⟩⟩
        ⟨.num 1, .num 2, .num 10, ⟨0, 7200, false⟩, ⟨3600, 7200, false⟩⟩ =
      false ∧
    (⟨.num 1, .num 1, .num 10, ⟨0, 7200, false⟩, ⟨3600, 7200, false⟩⟩ :
        HourlyPrice) ≠
      ⟨.num 1, .num 2, .num 10, ⟨0, 7200, false⟩, ⟨3600, 7200, false⟩⟩ ∧
    HourlyPrice.beq
        ⟨.num 1, .num 1, .num 10, ⟨0, 7200, false⟩, ⟨3600, 7200, false⟩⟩
        ⟨.num 1, .num 1, .num 10, ⟨0, 7200, false⟩, ⟨3600, 7200, false⟩⟩ =
      true := by
  refine ⟨by decide, by decide, by decide, by decide⟩
